import Mathlib

/-!
Verification of the renovation-transcript extraction pipeline (`app.py`).

The pipeline's pure core is shallowly embedded here:

* `extract_text` — dispatch on the (lowercased) file extension; the two
  format-specific extraction leaves call external document libraries, so they
  are parameters of the embedding and the dispatcher is modelled exactly.
* `clean_text` — `re.sub(r"\s+", " ", text)` followed by `str.strip()`,
  modelled character-by-character on `List Char`.
* `build_prompt` — the fixed f-string template with the transcript inserted.
* `extract_details_with_gpt` — the completion call is an external effect, so
  the model's reply and the JSON decoder (`json.loads`, standard library) are
  parameters; the strip / parse / fallback logic is modelled exactly.
* `create_pretty_excel` — the openpyxl workbook is modelled as the sheet title
  plus the ordered list of `(row, column) ↦ string` cell writes; purely visual
  styling (fonts, fills, borders, widths, freeze panes) is not modelled.

A small executable JSON reader `jsonLoadsModel` stands in for the standard
library `json.loads` on concrete inputs.
-/

set_option autoImplicit false
set_option maxRecDepth 8192

universe u

/-- Whitespace in the sense of Python's `\s` regex class and `str.strip`:
the six ASCII whitespace characters plus the common Unicode space
characters. -/
def pySpaceChars : List Char :=
  [' ', '\t', '\n', '\r', '\x0b', '\x0c',
   '\x85', '\xa0', ' ', ' ', ' ', ' ', ' ',
   ' ', ' ', ' ', ' ', ' ', ' ', ' ',
   ' ', ' ', ' ', ' ', '　']

/-- `pySpace c` holds when `c` is a whitespace character. -/
def pySpace (c : Char) : Bool :=
  pySpaceChars.contains c

/-- One pass of `re.sub(r"\s+", " ", text)`: the flag records whether the
previous character belonged to a whitespace run that has already been
replaced by a single space. -/
def re_sub_ws_aux : Bool → List Char → List Char
  | _, [] => []
  | prevSpace, c :: cs =>
    if pySpace c then
      if prevSpace then re_sub_ws_aux true cs
      else ' ' :: re_sub_ws_aux true cs
    else c :: re_sub_ws_aux false cs

/-- `re.sub(r"\s+", " ", text)`: every maximal whitespace run becomes one
space character. -/
def re_sub_ws (l : List Char) : List Char :=
  re_sub_ws_aux false l

/-- Python `str.strip()` on a character list: drop whitespace from both
ends. -/
def pyStripL (l : List Char) : List Char :=
  List.rdropWhile pySpace (List.dropWhile pySpace l)

/-- Python `str.strip()` on strings. -/
def pyStrip (s : String) : String :=
  String.mk (pyStripL s.data)

/-- `clean_text` from `app.py`: collapse whitespace runs to single spaces,
then strip the ends. -/
def clean_text (text : String) : String :=
  String.mk (pyStripL (re_sub_ws text.data))

/-- Python `str.lower()` restricted to ASCII letters (the only characters
relevant to extension dispatch). -/
def pyLower (s : String) : String :=
  String.mk (s.data.map Char.toLower)

/-- `extract_text` from `app.py`: lowercase the extension and dispatch.
The two extraction leaves parse external binary formats through the
`python-docx` / `PyPDF2` libraries, so they are taken as parameters
`extract_text_from_docx` / `extract_text_from_pdf`; an unsupported
extension raises `ValueError`, modelled as the `Except.error` branch. -/
def extract_text {β : Type u}
    (extract_text_from_docx : β → String) (extract_text_from_pdf : β → String)
    (file_bytes : β) (file_extension : String) : Except String String :=
  let fileExt := pyLower file_extension
  if fileExt = ".docx" then Except.ok (extract_text_from_docx file_bytes)
  else if fileExt = ".pdf" then Except.ok (extract_text_from_pdf file_bytes)
  else Except.error ("Unsupported file format: " ++ fileExt)

/-- The ten fixed field names, in the order of the `headers` list in
`create_pretty_excel` (the same order the prompt enumerates them). -/
def headers : List String :=
  ["ProjectName", "ClientName", "PropertyAddress", "ProjectManager",
   "RenovationAreas", "ScopeOfWork", "MaterialPreferences",
   "BudgetOrCost", "Timeline", "AdditionalNotes"]

/-- The part of the prompt template before the inserted transcript. -/
def promptHeader : String :=
  "\nYou are an AI assistant extracting renovation details from a client transcript.\nPlease carefully analyze the conversation and return a JSON object with these keys:\n\n1. \"ProjectName\": (If not mentioned, return \"Not provided\")\n2. \"ClientName\": (If not mentioned, return \"Not provided\")\n3. \"PropertyAddress\": (If not mentioned, return \"Not provided\")\n4. \"ProjectManager\": (If not mentioned, return \"Not provided\")\n5. \"RenovationAreas\": (List or describe the rooms/areas, e.g., \"Kitchen, Bathroom\")\n6. \"ScopeOfWork\": (Summarize all renovation tasks or goals)\n7. \"MaterialPreferences\": (List any specific materials or design preferences)\n8. \"BudgetOrCost\": (Any budget or cost references)\n9. \"Timeline\": (Any schedule or start/end dates mentioned)\n10. \"AdditionalNotes\": (Extra details like permit requirements, constraints, etc.)\n\nTranscript:\n"

/-- The closing line of the prompt that re-lists the ten keys. -/
def promptKeysLine : String :=
  "ProjectName, ClientName, PropertyAddress, ProjectManager, RenovationAreas, ScopeOfWork, MaterialPreferences, BudgetOrCost, Timeline, AdditionalNotes."

/-- The part of the prompt template after the inserted transcript. -/
def promptFooter : String :=
  "\n\nReturn only valid JSON with exactly the keys:\n" ++ promptKeysLine ++ "\n    "

/-- `build_prompt` from `app.py`: the fixed template with the transcript
text inserted verbatim. -/
def build_prompt (transcript_text : String) : String :=
  promptHeader ++ transcript_text ++ promptFooter

/-- JSON values as returned by `json.loads`. Numbers are kept as their
source lexeme (the claims under verification never inspect numeric
values, and Python renders them through float/int formatting that is
outside the scope of this embedding). -/
inductive JVal where
  | null : JVal
  | bool (b : Bool) : JVal
  | num (lexeme : String) : JVal
  | str (s : String) : JVal
  | arr (elems : List JVal) : JVal
  | obj (fields : List (String × JVal)) : JVal

mutual

/-- Python `repr` of a decoded JSON value (string escaping inside nested
strings is not reproduced; no theorem depends on the container cases). -/
def pyRepr : JVal → String
  | JVal.null => "None"
  | JVal.bool true => "True"
  | JVal.bool false => "False"
  | JVal.num lexeme => lexeme
  | JVal.str s => "\x27" ++ s ++ "\x27"
  | JVal.arr elems => "[" ++ pyReprElems elems ++ "]"
  | JVal.obj fields => "\x7b" ++ pyReprFields fields ++ "\x7d"

/-- Comma-separated `repr`s of list elements. -/
def pyReprElems : List JVal → String
  | [] => ""
  | [v] => pyRepr v
  | v :: vs => pyRepr v ++ ", " ++ pyReprElems vs

/-- Comma-separated `repr`s of dict entries. -/
def pyReprFields : List (String × JVal) → String
  | [] => ""
  | [(k, v)] => "\x27" ++ k ++ "\x27: " ++ pyRepr v
  | (k, v) :: fs => "\x27" ++ k ++ "\x27: " ++ pyRepr v ++ ", " ++ pyReprFields fs

end

/-- Python `str` of a decoded JSON value: a string is returned as itself,
everything else renders as its `repr`. -/
def pyStr : JVal → String
  | JVal.str s => s
  | v => pyRepr v

/-- Python `dict.get` on the decoded object's field list: first matching
key wins. -/
def dict_get (details : List (String × JVal)) (key : String) : Option JVal :=
  (details.find? (fun e => e.1 == key)).map (fun e => e.2)

/-- Python dict insertion `d[k] = v` while building an object during JSON
decoding: overwrite the value of an existing key in place, otherwise
append the new entry. -/
def setField : List (String × JVal) → String → JVal → List (String × JVal)
  | [], key, v => [(key, v)]
  | (k, w) :: fs, key, v =>
    if k = key then (k, v) :: fs else (k, w) :: setField fs key v

/-- The whitespace characters JSON itself allows between tokens. -/
def jsonWs (c : Char) : Bool :=
  c = ' ' || c = '\t' || c = '\n' || c = '\r'

/-- Skip JSON inter-token whitespace. -/
def skipJsonWs (cs : List Char) : List Char :=
  cs.dropWhile jsonWs

/-- Lex the body of a JSON string literal after the opening quote; returns
the decoded characters and the remainder after the closing quote. The
`\uXXXX` escape form is not modelled. -/
def lexJsonString : List Char → Except String (List Char × List Char)
  | [] => Except.error "Unterminated string"
  | '"' :: rest => Except.ok ([], rest)
  | '\\' :: rest =>
    match rest with
    | [] => Except.error "Unterminated string"
    | e :: rest2 =>
      let esc : Except String Char :=
        if e = '"' then Except.ok '"'
        else if e = '\\' then Except.ok '\\'
        else if e = '/' then Except.ok '/'
        else if e = 'n' then Except.ok '\n'
        else if e = 't' then Except.ok '\t'
        else if e = 'r' then Except.ok '\r'
        else if e = 'b' then Except.ok '\x08'
        else if e = 'f' then Except.ok '\x0c'
        else Except.error "Invalid escape"
      match esc with
      | Except.error msg => Except.error msg
      | Except.ok c =>
        match lexJsonString rest2 with
        | Except.error msg => Except.error msg
        | Except.ok (cs, rem) => Except.ok (c :: cs, rem)
  | c :: rest =>
    match lexJsonString rest with
    | Except.error msg => Except.error msg
    | Except.ok (cs, rem) => Except.ok (c :: cs, rem)

/-- Characters that may occur in a JSON number lexeme. -/
def isJsonNumChar (c : Char) : Bool :=
  c.isDigit || c = '-' || c = '+' || c = '.' || c = 'e' || c = 'E'

/-- Consume the integer part of a JSON number (`0` or a nonzero digit
followed by digits); returns the remainder on success. -/
def jsonIntPart : List Char → Option (List Char)
  | [] => none
  | c :: r =>
    if c = '0' then some r
    else if c.isDigit then some (r.dropWhile Char.isDigit)
    else none

/-- Consume an optional JSON fraction part. -/
def jsonFracPart : List Char → Option (List Char)
  | '.' :: r =>
    if (r.takeWhile Char.isDigit).isEmpty then none
    else some (r.dropWhile Char.isDigit)
  | cs => some cs

/-- Consume an optional JSON exponent part. -/
def jsonExpPart : List Char → Option (List Char)
  | c :: r =>
    if c = 'e' || c = 'E' then
      let r2 := match r with
        | s :: r3 => if s = '+' || s = '-' then r3 else s :: r3
        | [] => []
      if (r2.takeWhile Char.isDigit).isEmpty then none
      else some (r2.dropWhile Char.isDigit)
    else some (c :: r)
  | [] => some []

/-- Validity of a complete JSON number lexeme. -/
def jsonNumValid (cs : List Char) : Bool :=
  let body := match cs with
    | '-' :: r => r
    | r => r
  match jsonIntPart body with
  | none => false
  | some r1 =>
    match jsonFracPart r1 with
    | none => false
    | some r2 =>
      match jsonExpPart r2 with
      | none => false
      | some r3 => r3.isEmpty

mutual

/-- Decode one JSON value from the input, fuel-bounded; returns the value
and the unconsumed remainder. -/
def parseJsonValue : Nat → List Char → Except String (JVal × List Char)
  | 0, _ => Except.error "Too deeply nested"
  | Nat.succ fuel, cs =>
    match skipJsonWs cs with
    | [] => Except.error "Expecting value"
    | c :: rest =>
      if c = '\x7b' then
        match skipJsonWs rest with
        | '\x7d' :: rest2 => Except.ok (JVal.obj [], rest2)
        | _ => parseJsonMembers fuel [] rest
      else if c = '[' then
        match skipJsonWs rest with
        | ']' :: rest2 => Except.ok (JVal.arr [], rest2)
        | _ => parseJsonElems fuel [] rest
      else if c = '"' then
        match lexJsonString rest with
        | Except.error e => Except.error e
        | Except.ok (body, rem) => Except.ok (JVal.str (String.mk body), rem)
      else if c = 't' then
        match rest with
        | 'r' :: 'u' :: 'e' :: rem => Except.ok (JVal.bool true, rem)
        | _ => Except.error "Expecting value"
      else if c = 'f' then
        match rest with
        | 'a' :: 'l' :: 's' :: 'e' :: rem => Except.ok (JVal.bool false, rem)
        | _ => Except.error "Expecting value"
      else if c = 'n' then
        match rest with
        | 'u' :: 'l' :: 'l' :: rem => Except.ok (JVal.null, rem)
        | _ => Except.error "Expecting value"
      else
        let lexeme := (c :: rest).takeWhile isJsonNumChar
        let rem := (c :: rest).dropWhile isJsonNumChar
        if jsonNumValid lexeme then Except.ok (JVal.num (String.mk lexeme), rem)
        else Except.error "Expecting value"

/-- Decode the members of a JSON object after its opening brace. -/
def parseJsonMembers :
    Nat → List (String × JVal) → List Char → Except String (JVal × List Char)
  | 0, _, _ => Except.error "Too deeply nested"
  | Nat.succ fuel, acc, cs =>
    match skipJsonWs cs with
    | '"' :: rest =>
      match lexJsonString rest with
      | Except.error e => Except.error e
      | Except.ok (kcs, rem) =>
        match skipJsonWs rem with
        | ':' :: rem2 =>
          match parseJsonValue fuel rem2 with
          | Except.error e => Except.error e
          | Except.ok (v, rem3) =>
            let acc2 := setField acc (String.mk kcs) v
            match skipJsonWs rem3 with
            | ',' :: rem4 => parseJsonMembers fuel acc2 rem4
            | '\x7d' :: rem4 => Except.ok (JVal.obj acc2, rem4)
            | _ => Except.error "Expecting delimiter"
        | _ => Except.error "Expecting colon"
    | _ => Except.error "Expecting property name"

/-- Decode the elements of a JSON array after its opening bracket. -/
def parseJsonElems :
    Nat → List JVal → List Char → Except String (JVal × List Char)
  | 0, _, _ => Except.error "Too deeply nested"
  | Nat.succ fuel, acc, cs =>
    match parseJsonValue fuel cs with
    | Except.error e => Except.error e
    | Except.ok (v, rem) =>
      match skipJsonWs rem with
      | ',' :: rem2 => parseJsonElems fuel (acc ++ [v]) rem2
      | ']' :: rem2 => Except.ok (JVal.arr (acc ++ [v]), rem2)
      | _ => Except.error "Expecting delimiter"

end

/-- Modelled from the standard library `json.loads` (external to this
repository): decode one JSON document and reject trailing data. Used to
instantiate the decoder parameter of `extract_details_with_gpt` on
concrete inputs. -/
def jsonLoadsModel (s : String) : Except String JVal :=
  match parseJsonValue (2 * s.data.length + 2) s.data with
  | Except.error e => Except.error e
  | Except.ok (v, rest) =>
    if (skipJsonWs rest).isEmpty then Except.ok v
    else Except.error "Extra data"

/-- The field list of the hard-coded fallback record in
`extract_details_with_gpt`. -/
def fallback_fields : List (String × JVal) :=
  [("ProjectName", JVal.str "Not provided"),
   ("ClientName", JVal.str "Not provided"),
   ("PropertyAddress", JVal.str "Not provided"),
   ("ProjectManager", JVal.str "Not provided"),
   ("RenovationAreas", JVal.str "Not provided"),
   ("ScopeOfWork", JVal.str "Not provided"),
   ("MaterialPreferences", JVal.str "Not provided"),
   ("BudgetOrCost", JVal.str "Not provided"),
   ("Timeline", JVal.str "Not provided"),
   ("AdditionalNotes", JVal.str "Not provided")]

/-- The hard-coded fallback record. -/
def fallback_details : JVal :=
  JVal.obj fallback_fields

/-- `extract_details_with_gpt` from `app.py`. The network call and the
standard library JSON decoder are external effects, so the completion
service (`complete`, mapping the built prompt to the first choice's
message content) and the decoder (`json_loads`) are parameters; the
strip / decode / fallback logic follows the source. The `st.error` /
`st.write` diagnostic calls on the failure path are UI effects with no
bearing on the returned value and are not modelled. -/
def extract_details_with_gpt (complete : String → String)
    (json_loads : String → Except String JVal) (transcript_text : String) : JVal :=
  let prompt := build_prompt transcript_text
  let gpt_output := pyStrip (complete prompt)
  match json_loads gpt_output with
  | Except.ok details => details
  | Except.error _ => fallback_details

/-- Whether a decoded JSON value is an object (a Python mapping). -/
def isObjB : JVal → Bool
  | JVal.obj _ => true
  | _ => false

/-- Whether a decoded JSON object carries the given key. -/
def objHasKey (v : JVal) (key : String) : Bool :=
  match v with
  | JVal.obj fields => fields.any (fun e => e.1 == key)
  | _ => false

/-- One item of Python `", ".join(val)`: joining demands every element be
a string and raises `TypeError` otherwise. -/
def str_of_item : JVal → Except String String
  | JVal.str s => Except.ok s
  | _ => Except.error "TypeError: sequence item: expected str instance"

/-- Python `", ".join(val)` on a decoded JSON list. -/
def join_comma (items : List JVal) : Except String String :=
  (items.mapM str_of_item).map (String.intercalate ", ")

/-- The row-2 cell text computed by the body of the second loop of
`create_pretty_excel`: `details.get(header, "Not provided")`, the
list-join coercion, then `str`. -/
def render_value (details : List (String × JVal)) (header : String) :
    Except String String :=
  match dict_get details header with
  | none => Except.ok "Not provided"
  | some (JVal.arr items) => join_comma items
  | some v => Except.ok (pyStr v)

/-- A worksheet: its title and the ordered list of
`(row, column) ↦ text` cell writes (styling is not modelled). -/
structure Worksheet where
  title : String
  cells : List ((Nat × Nat) × String)

/-- A workbook: its list of worksheets. `openpyxl.Workbook()` starts with
exactly one active sheet and `create_pretty_excel` adds no other. -/
structure Workbook where
  sheets : List Worksheet

/-- The cell writes of `for col_idx, v in enumerate(vs, start=col)` into
one row. -/
def writeRow (row : Nat) : Nat → List String → List ((Nat × Nat) × String)
  | _, [] => []
  | col, v :: vs => ((row, col), v) :: writeRow row (col + 1) vs

/-- `create_pretty_excel` from `app.py`: one sheet titled
"Renovation Data", the header row written at row 1, the rendered values
at row 2. A `TypeError` raised while joining a list value aborts the
function with no workbook, modelled by the `Except.error` branch. -/
def create_pretty_excel (details : List (String × JVal)) : Except String Workbook :=
  match headers.mapM (render_value details) with
  | Except.error e => Except.error e
  | Except.ok vals =>
    Except.ok
      { sheets := [{ title := "Renovation Data",
                     cells := writeRow 1 1 headers ++ writeRow 2 1 vals }] }

/-- The text of the cell at the given coordinates, if populated. -/
def cellAt (ws : Worksheet) (row col : Nat) : Option String :=
  (ws.cells.find? (fun e => e.1 == (row, col))).map (fun e => e.2)

/-- The distinct populated row indices of a worksheet, in first-write
order. -/
def populatedRows (ws : Worksheet) : List Nat :=
  (ws.cells.map (fun e => e.1.1)).dedup

/-- The distinct populated column indices of a worksheet, in first-write
order. -/
def populatedCols (ws : Worksheet) : List Nat :=
  (ws.cells.map (fun e => e.1.2)).dedup

/-- A value of the shape §3 of the spec gives `ProjectDetails` values:
a string, or a list of strings. -/
def wellTypedVal : JVal → Bool
  | JVal.str _ => true
  | JVal.arr items => items.all (fun v => match v with | JVal.str _ => true | _ => false)
  | _ => false

/-- A record whose values all have the spec's `ProjectDetails` shape. -/
def WellTypedDetails (details : List (String × JVal)) : Prop :=
  ∀ e ∈ details, wellTypedVal e.2 = true

/-- Written from the spec's wording for row 2 (§4.5): default
"Not provided" for a missing key, join list elements with ", ", otherwise
the value's string representation. Compared against `render_value` in the
row-2 cell theorems. -/
def render_cell_spec (details : List (String × JVal)) (header : String) : String :=
  match dict_get details header with
  | none => "Not provided"
  | some (JVal.arr items) => String.intercalate ", " (items.map pyStr)
  | some v => pyStr v

theorem except_pure_eq_ok {ε α : Type} (a : α) : (pure a : Except ε α) = Except.ok a := rfl

theorem except_bind_ok {ε α β : Type} (a : α) (f : α → Except ε β) :
    (Except.ok a >>= f : Except ε β) = f a := rfl

theorem except_bind_error {ε α β : Type} (e : ε) (f : α → Except ε β) :
    (Except.error e >>= f : Except ε β) = Except.error e := rfl

theorem except_map_ok {ε α β : Type} (g : α → β) (a : α) :
    Except.map g (Except.ok a : Except ε α) = Except.ok (g a) := rfl

theorem mapM_ok_of_forall {α β : Type} (f : α → Except String β) (g : α → β) :
    ∀ l : List α, (∀ a ∈ l, f a = Except.ok (g a)) → l.mapM f = Except.ok (l.map g)
  | [], _ => by rw [List.mapM_nil, except_pure_eq_ok, List.map_nil]
  | a :: l, h => by
    have ha : f a = Except.ok (g a) := h a (by simp)
    have hl : l.mapM f = Except.ok (l.map g) :=
      mapM_ok_of_forall f g l (fun x hx => h x (by simp [hx]))
    rw [List.mapM_cons, ha, except_bind_ok, hl, except_bind_ok, List.map_cons,
      except_pure_eq_ok]

theorem mapM_ok_nth {α β : Type} (f : α → Except String β) :
    ∀ (l : List α) (out : List β), l.mapM f = Except.ok out →
      out.length = l.length ∧
      ∀ i (h1 : i < l.length) (h2 : i < out.length),
        f (l.get ⟨i, h1⟩) = Except.ok (out.get ⟨i, h2⟩)
  | [], out, h => by
    rw [List.mapM_nil, except_pure_eq_ok] at h
    simp only [Except.ok.injEq] at h
    subst h
    exact ⟨rfl, fun i h1 _ => absurd h1 (by simp)⟩
  | a :: l, out, h => by
    rw [List.mapM_cons] at h
    cases hfa : f a with
    | error e => rw [hfa, except_bind_error] at h; simp at h
    | ok b =>
      rw [hfa, except_bind_ok] at h
      cases hml : l.mapM f with
      | error e => rw [hml, except_bind_error] at h; simp at h
      | ok bs =>
        rw [hml, except_bind_ok, except_pure_eq_ok] at h
        simp only [Except.ok.injEq] at h
        obtain ⟨hl, hget⟩ := mapM_ok_nth f l bs hml
        subst h
        refine ⟨by simp [hl], fun i h1 h2 => ?_⟩
        cases i with
        | zero => simpa using hfa
        | succ j => simpa using hget j (by simpa using h1) (by simpa using h2)

theorem join_comma_ok :
    ∀ items : List JVal, (∀ x ∈ items, ∃ s, x = JVal.str s) →
      join_comma items = Except.ok (String.intercalate ", " (items.map pyStr)) := by
  intro items h
  unfold join_comma
  rw [mapM_ok_of_forall str_of_item pyStr items]
  · rfl
  · intro x hx
    obtain ⟨s, rfl⟩ := h x hx
    rfl

theorem render_value_ok (details : List (String × JVal))
    (hw : WellTypedDetails details) (hd : String) :
    render_value details hd = Except.ok (render_cell_spec details hd) := by
  unfold render_value render_cell_spec
  cases hg : dict_get details hd with
  | none => rfl
  | some v =>
    have hv : wellTypedVal v = true := by
      unfold dict_get at hg
      cases hf : details.find? (fun e => e.1 == hd) with
      | none => rw [hf] at hg; simp at hg
      | some e =>
        rw [hf] at hg
        simp at hg
        exact hg ▸ hw e (List.mem_of_find?_eq_some hf)
    cases v with
    | str s => rfl
    | arr items =>
      refine join_comma_ok items ?_
      intro x hx
      unfold wellTypedVal at hv
      have := List.all_eq_true.mp hv x hx
      cases x with
      | str s => exact ⟨s, rfl⟩
      | null => simp at this
      | bool b => simp at this
      | num m => simp at this
      | arr a => simp at this
      | obj o => simp at this
    | null => simp [wellTypedVal] at hv
    | bool b => simp [wellTypedVal] at hv
    | num m => simp [wellTypedVal] at hv
    | obj o => simp [wellTypedVal] at hv

theorem writeRow_map_row (r : Nat) :
    ∀ (c : Nat) (vs : List String),
      (writeRow r c vs).map (fun e => e.1.1) = List.replicate vs.length r
  | _, [] => rfl
  | c, v :: vs => by
    simp only [writeRow, List.map_cons, List.length_cons, List.replicate_succ]
    rw [writeRow_map_row r (c + 1) vs]

theorem writeRow_map_col (r : Nat) :
    ∀ (c : Nat) (vs : List String),
      (writeRow r c vs).map (fun e => e.1.2) = List.range' c vs.length
  | _, [] => rfl
  | c, v :: vs => by
    simp only [writeRow, List.map_cons, List.length_cons, List.range'_succ]
    rw [writeRow_map_col r (c + 1) vs]

theorem find?_writeRow_ne (r r' c' : Nat) (h : r ≠ r') :
    ∀ (c : Nat) (vs : List String),
      (writeRow r c vs).find? (fun e => e.1 == (r', c')) = none
  | _, [] => rfl
  | c, v :: vs => by
    rw [writeRow, List.find?_cons_of_neg, find?_writeRow_ne r r' c' h (c + 1) vs]
    simp [h]

theorem find?_writeRow_at (r : Nat) :
    ∀ (vs : List String) (c i : Nat) (hi : i < vs.length),
      (writeRow r c vs).find? (fun e => e.1 == (r, c + i)) =
        some ((r, c + i), vs.get ⟨i, hi⟩)
  | [], _, i, hi => absurd hi (by simp)
  | v :: vs, c, 0, _ => by
    rw [writeRow, List.find?_cons_of_pos] <;> simp
  | v :: vs, c, i + 1, hi => by
    rw [writeRow, List.find?_cons_of_neg]
    · have hrec := find?_writeRow_at r vs (c + 1) i (by simpa using Nat.lt_of_succ_lt_succ hi)
      have hc : c + 1 + i = c + (i + 1) := by omega
      rw [hc] at hrec
      rw [hrec]
      rfl
    · simp

theorem create_pretty_excel_ok (details : List (String × JVal)) (vals : List String)
    (h : headers.mapM (render_value details) = Except.ok vals) :
    create_pretty_excel details =
      Except.ok { sheets := [{ title := "Renovation Data",
                               cells := writeRow 1 1 headers ++ writeRow 2 1 vals }] } := by
  unfold create_pretty_excel
  rw [h]

theorem create_pretty_excel_ok_inv (details : List (String × JVal)) (wb : Workbook)
    (h : create_pretty_excel details = Except.ok wb) :
    ∃ vals, headers.mapM (render_value details) = Except.ok vals ∧
      wb = { sheets := [{ title := "Renovation Data",
                          cells := writeRow 1 1 headers ++ writeRow 2 1 vals }] } := by
  unfold create_pretty_excel at h
  cases hm : headers.mapM (render_value details) with
  | error e => rw [hm] at h; simp at h
  | ok vals =>
    rw [hm] at h
    simp only [Except.ok.injEq] at h
    exact ⟨vals, rfl, h.symm⟩

theorem cellAt_mk_row1 (vals : List String) (i : Nat) (hi : i < headers.length) :
    cellAt { title := "Renovation Data",
             cells := writeRow 1 1 headers ++ writeRow 2 1 vals } 1 (i + 1) =
      some (headers.get ⟨i, hi⟩) := by
  unfold cellAt
  have h1 : (1 : Nat) + i = i + 1 := by omega
  have hfind := find?_writeRow_at 1 headers 1 i hi
  rw [h1] at hfind
  rw [List.find?_append, hfind]
  rfl

theorem cellAt_mk_row2 (vals : List String) (i : Nat) (hi : i < vals.length) :
    cellAt { title := "Renovation Data",
             cells := writeRow 1 1 headers ++ writeRow 2 1 vals } 2 (i + 1) =
      some (vals.get ⟨i, hi⟩) := by
  unfold cellAt
  have h1 : (1 : Nat) + i = i + 1 := by omega
  have hnone := find?_writeRow_ne 1 2 (i + 1) (by omega) 1 headers
  have hfind := find?_writeRow_at 2 vals 1 i hi
  rw [h1] at hfind
  rw [List.find?_append, hnone, hfind]
  rfl

/-- C2: for every completion-response text whose stripped form the JSON
decoder rejects, `extract_details_with_gpt` returns normally with the
fixed fallback record in which all ten fields equal "Not provided". -/
theorem extract_details_fallback_on_parse_error
    (complete : String → String) (json_loads : String → Except String JVal)
    (transcript_text : String) (e : String)
    (h : json_loads (pyStrip (complete (build_prompt transcript_text))) =
      Except.error e) :
    extract_details_with_gpt complete json_loads transcript_text = fallback_details := by
  show (match json_loads (pyStrip (complete (build_prompt transcript_text))) with
    | Except.ok details => details
    | Except.error _ => fallback_details) = fallback_details
  rw [h]

/-- Witness for C2 at the spec's own example of a non-JSON reply. -/
theorem extract_details_fallback_on_parse_error_witness :
    extract_details_with_gpt (fun _ => "Sure, here is the info: ...")
      jsonLoadsModel "" = fallback_details :=
  extract_details_fallback_on_parse_error (fun _ => "Sure, here is the info: ...")
    jsonLoadsModel "" "Expecting value" (by rfl)

/-- C3: for every completion-response text that, after stripping, the JSON
decoder accepts as an object, `extract_details_with_gpt` returns exactly
that parsed object — no key validation, key addition, or value
coercion. -/
theorem extract_details_returns_parsed_object
    (complete : String → String) (json_loads : String → Except String JVal)
    (transcript_text : String) (fields : List (String × JVal))
    (h : json_loads (pyStrip (complete (build_prompt transcript_text))) =
      Except.ok (JVal.obj fields)) :
    extract_details_with_gpt complete json_loads transcript_text = JVal.obj fields := by
  show (match json_loads (pyStrip (complete (build_prompt transcript_text))) with
    | Except.ok details => details
    | Except.error _ => fallback_details) = JVal.obj fields
  rw [h]

/-- Witness for C3 at a concrete one-key JSON object reply. -/
theorem extract_details_returns_parsed_object_witness :
    extract_details_with_gpt (fun _ => " \x7b\"ProjectName\": \"Oak St Remodel\"\x7d ")
      jsonLoadsModel "" = JVal.obj [("ProjectName", JVal.str "Oak St Remodel")] :=
  extract_details_returns_parsed_object
    (fun _ => " \x7b\"ProjectName\": \"Oak St Remodel\"\x7d ") jsonLoadsModel ""
    [("ProjectName", JVal.str "Oak St Remodel")] (by rfl)

/-- C9: a completion-response text that decodes as valid JSON which is not
an object is returned as-is, not replaced by the fallback record, so the
extraction result need not be a mapping. -/
theorem extract_details_nonobject_passthrough
    (complete : String → String) (json_loads : String → Except String JVal)
    (transcript_text : String) (v : JVal)
    (h : json_loads (pyStrip (complete (build_prompt transcript_text))) = Except.ok v)
    (hobj : isObjB v = false) :
    extract_details_with_gpt complete json_loads transcript_text = v ∧
      extract_details_with_gpt complete json_loads transcript_text ≠ fallback_details := by
  have hv : extract_details_with_gpt complete json_loads transcript_text = v := by
    show (match json_loads (pyStrip (complete (build_prompt transcript_text))) with
      | Except.ok details => details
      | Except.error _ => fallback_details) = v
    rw [h]
  refine ⟨hv, ?_⟩
  rw [hv]
  intro heq
  rw [heq] at hobj
  simp [fallback_details, isObjB] at hobj

/-- Witness for C9 at a JSON-array reply. -/
theorem extract_details_nonobject_passthrough_witness :
    extract_details_with_gpt (fun _ => "[\"Kitchen\", \"Bath\"]") jsonLoadsModel "" =
        JVal.arr [JVal.str "Kitchen", JVal.str "Bath"] ∧
      extract_details_with_gpt (fun _ => "[\"Kitchen\", \"Bath\"]") jsonLoadsModel "" ≠
        fallback_details :=
  extract_details_nonobject_passthrough (fun _ => "[\"Kitchen\", \"Bath\"]")
    jsonLoadsModel "" (JVal.arr [JVal.str "Kitchen", JVal.str "Bath"]) (by rfl) (by rfl)

/-- C5: an extension that is not case-insensitively ".docx" or ".pdf"
makes `extract_text` fail with the unsupported-format error no matter
what the extraction leaves would return, and a ".docx" / ".pdf" extension
in any letter case selects the corresponding extraction path. -/
theorem extract_text_dispatch {β : Type u}
    (extract_text_from_docx : β → String) (extract_text_from_pdf : β → String)
    (file_bytes : β) (file_extension : String) :
    (pyLower file_extension ≠ ".docx" → pyLower file_extension ≠ ".pdf" →
      extract_text extract_text_from_docx extract_text_from_pdf file_bytes
          file_extension =
        Except.error ("Unsupported file format: " ++ pyLower file_extension)) ∧
    (pyLower file_extension = ".docx" →
      extract_text extract_text_from_docx extract_text_from_pdf file_bytes
          file_extension =
        Except.ok (extract_text_from_docx file_bytes)) ∧
    (pyLower file_extension = ".pdf" →
      extract_text extract_text_from_docx extract_text_from_pdf file_bytes
          file_extension =
        Except.ok (extract_text_from_pdf file_bytes)) := by
  unfold extract_text
  refine ⟨fun h1 h2 => ?_, fun h1 => ?_, fun h1 => ?_⟩
  · rw [if_neg h1, if_neg h2]
  · rw [if_pos h1]
  · rw [if_neg (by rw [h1]; decide), if_pos h1]

/-- Witness for C5: a ".txt" upload is rejected with no extraction, a
mixed-case ".DocX" and ".PDF" select their extraction paths. -/
theorem extract_text_dispatch_witness :
    extract_text (fun _ : Unit => "docx text") (fun _ => "pdf text") () ".txt" =
        Except.error "Unsupported file format: .txt" ∧
      extract_text (fun _ : Unit => "docx text") (fun _ => "pdf text") () ".DocX" =
        Except.ok "docx text" ∧
      extract_text (fun _ : Unit => "docx text") (fun _ => "pdf text") () ".PDF" =
        Except.ok "pdf text" :=
  ⟨(extract_text_dispatch (fun _ : Unit => "docx text") (fun _ => "pdf text") ()
      ".txt").1 (by decide) (by decide),
   (extract_text_dispatch (fun _ : Unit => "docx text") (fun _ => "pdf text") ()
      ".DocX").2.1 (by decide),
   (extract_text_dispatch (fun _ : Unit => "docx text") (fun _ => "pdf text") ()
      ".PDF").2.2 (by decide)⟩

/-- C10: a record whose "RenovationAreas" value is a list holding a
non-string element makes `create_pretty_excel` raise (the comma-space
join fails before any string coercion), so rendering is not total over
list-valued inputs. -/
theorem create_pretty_excel_error_on_nonstring_list_item :
    create_pretty_excel
        [("RenovationAreas", JVal.arr [JVal.str "Kitchen", JVal.num "3"])] =
      Except.error "TypeError: sequence item: expected str instance" := by
  rfl

/-- C1 counterexample: the model reply "[empty object]" decodes as a JSON
object with no keys, and `extract_details_with_gpt` returns it unchanged,
so the record it produces does not contain the key "ProjectName" (nor any
of the other nine), contradicting the claim that all ten keys are always
present in the record this function produces. -/
theorem extract_details_passthrough_counterexample :
    extract_details_with_gpt (fun _ => "\x7b\x7d") jsonLoadsModel "" = JVal.obj [] ∧
      objHasKey (extract_details_with_gpt (fun _ => "\x7b\x7d") jsonLoadsModel "")
        "ProjectName" = false :=
  ⟨by rfl, by rfl⟩

/-- C1 (amended): all ten keys defaulting to "Not provided" is guaranteed
by the fallback record (whose field list is exactly the ten headers each
mapped to "Not provided") and at render time: whatever record reaches
`create_pretty_excel`, a key absent from it yields the row-2 cell text
"Not provided". The successful-parse record itself is passed through
without key addition. -/
theorem not_provided_default_at_render_time :
    fallback_fields = headers.map (fun h => (h, JVal.str "Not provided")) ∧
    ∀ (details : List (String × JVal)) (wb : Workbook) (ws : Worksheet)
      (i : Nat) (hi : i < headers.length),
      create_pretty_excel details = Except.ok wb → wb.sheets = [ws] →
      dict_get details (headers.get ⟨i, hi⟩) = none →
      cellAt ws 2 (i + 1) = some "Not provided" := by
  refine ⟨rfl, ?_⟩
  intro details wb ws i hi hok hsheets hnone
  obtain ⟨vals, hmap, hwb⟩ := create_pretty_excel_ok_inv details wb hok
  obtain ⟨hlen, hget⟩ := mapM_ok_nth (render_value details) headers vals hmap
  have hi2 : i < vals.length := by rw [hlen]; exact hi
  have hr := hget i hi hi2
  have hrv : render_value details (headers.get ⟨i, hi⟩) = Except.ok "Not provided" := by
    unfold render_value
    rw [hnone]
  rw [hrv] at hr
  simp only [Except.ok.injEq] at hr
  subst hwb
  simp only [List.cons.injEq, and_true] at hsheets
  subst hsheets
  rw [cellAt_mk_row2 vals i hi2, ← hr]

/-- Witness for the amended C1: rendering the empty record leaves the
first row-2 cell at "Not provided". -/
theorem not_provided_default_at_render_time_witness :
    cellAt { title := "Renovation Data",
             cells := writeRow 1 1 headers ++
               writeRow 2 1 (List.replicate 10 "Not provided") } 2 1 =
      some "Not provided" := by
  refine not_provided_default_at_render_time.2 [] _ _ 0 (by decide) ?_ rfl rfl
  rfl

/-- C7: for every record with the spec's `ProjectDetails` value shape,
`create_pretty_excel` yields a workbook with exactly one sheet, named
"Renovation Data", whose populated rows are exactly 1 and 2 and populated
columns exactly 1 through 10, the header row holding the ten field names
in their fixed order. -/
theorem create_pretty_excel_shape (details : List (String × JVal))
    (hw : WellTypedDetails details) :
    ∃ wb ws, create_pretty_excel details = Except.ok wb ∧
      wb.sheets = [ws] ∧
      ws.title = "Renovation Data" ∧
      populatedRows ws = [1, 2] ∧
      populatedCols ws = [1, 2, 3, 4, 5, 6, 7, 8, 9, 10] ∧
      ∀ i (hi : i < headers.length), cellAt ws 1 (i + 1) = some (headers.get ⟨i, hi⟩) := by
  have hmap := mapM_ok_of_forall (render_value details) (render_cell_spec details)
    headers (fun a _ => render_value_ok details hw a)
  have hlen : (headers.map (render_cell_spec details)).length = 10 := by
    simp [headers]
  refine ⟨_, _, create_pretty_excel_ok details _ hmap, rfl, rfl, ?_, ?_, ?_⟩
  · unfold populatedRows
    simp only [List.map_append, writeRow_map_row]
    rw [hlen]
    decide
  · unfold populatedCols
    simp only [List.map_append, writeRow_map_col]
    rw [hlen]
    decide
  · intro i hi
    exact cellAt_mk_row1 (headers.map (render_cell_spec details)) i hi

/-- Witness for C7 at the empty record. -/
theorem create_pretty_excel_shape_witness :
    ∃ wb ws, create_pretty_excel [] = Except.ok wb ∧
      wb.sheets = [ws] ∧
      ws.title = "Renovation Data" ∧
      populatedRows ws = [1, 2] ∧
      populatedCols ws = [1, 2, 3, 4, 5, 6, 7, 8, 9, 10] ∧
      cellAt ws 1 1 = some "ProjectName" := by
  obtain ⟨wb, ws, h1, h2, h3, h4, h5, h6⟩ :=
    create_pretty_excel_shape [] (fun e he => absurd he (List.not_mem_nil e))
  exact ⟨wb, ws, h1, h2, h3, h4, h5, h6 0 (by decide)⟩

/-- C8: for every record with the spec's `ProjectDetails` value shape and
every field index, the row-2 cell equals the spec's formula: "Not
provided" for a missing key, the list elements joined with comma-space
for a list value, otherwise the value's string representation. -/
theorem create_pretty_excel_row2_values (details : List (String × JVal))
    (hw : WellTypedDetails details) (i : Nat) (hi : i < headers.length) :
    ∃ wb ws, create_pretty_excel details = Except.ok wb ∧
      wb.sheets = [ws] ∧
      cellAt ws 2 (i + 1) = some (render_cell_spec details (headers.get ⟨i, hi⟩)) := by
  have hmap := mapM_ok_of_forall (render_value details) (render_cell_spec details)
    headers (fun a _ => render_value_ok details hw a)
  refine ⟨_, _, create_pretty_excel_ok details _ hmap, rfl, ?_⟩
  have hi2 : i < (headers.map (render_cell_spec details)).length := by
    simpa using hi
  rw [cellAt_mk_row2 (headers.map (render_cell_spec details)) i hi2]
  congr 1
  simp [List.getElem_map]

/-- Witness for C8: a list value ["Kitchen", "Bath"] renders as the cell
text "Kitchen, Bath". -/
theorem create_pretty_excel_row2_values_witness :
    ∃ wb ws, create_pretty_excel
        [("RenovationAreas", JVal.arr [JVal.str "Kitchen", JVal.str "Bath"])] =
        Except.ok wb ∧
      wb.sheets = [ws] ∧
      cellAt ws 2 5 = some "Kitchen, Bath" := by
  obtain ⟨wb, ws, h1, h2, h3⟩ :=
    create_pretty_excel_row2_values
      [("RenovationAreas", JVal.arr [JVal.str "Kitchen", JVal.str "Bath"])]
      (fun e he => by rw [List.mem_singleton] at he; subst he; rfl) 4 (by decide)
  exact ⟨wb, ws, h1, h2, by rw [h3]; rfl⟩

/-- C6: the built prompt contains the transcript verbatim as a substring
and contains each of the ten field names as a substring. -/
theorem build_prompt_contains_transcript_and_fields (t : String) :
    t.data <:+: (build_prompt t).data ∧
      ∀ h ∈ headers, h.data <:+: (build_prompt t).data := by
  constructor
  · exact ⟨promptHeader.data, promptFooter.data, by
      simp [build_prompt, String.data_append]⟩
  · intro h hh
    have h1 : h.data <:+: promptKeysLine.data := by
      fin_cases hh <;> decide
    have h2 : promptKeysLine.data <:+: promptFooter.data := by
      refine ⟨"\n\nReturn only valid JSON with exactly the keys:\n".data, "\n    ".data, ?_⟩
      simp [promptFooter, String.data_append]
    have h3 : promptFooter.data <:+: (build_prompt t).data := by
      refine ⟨(promptHeader ++ t).data, [], ?_⟩
      simp [build_prompt, String.data_append]
    exact h1.trans (h2.trans h3)

/-- Witness for C6 on a concrete transcript and the field "Timeline". -/
theorem build_prompt_contains_transcript_and_fields_witness :
    "hello world".data <:+: (build_prompt "hello world").data ∧
      "Timeline".data <:+: (build_prompt "hello world").data :=
  ⟨(build_prompt_contains_transcript_and_fields "hello world").1,
   (build_prompt_contains_transcript_and_fields "hello world").2 "Timeline" (by decide)⟩

theorem re_sub_ws_aux_space_eq :
    ∀ (l : List Char) (b : Bool), ∀ c ∈ re_sub_ws_aux b l, pySpace c = true → c = ' ' := by
  intro l
  induction l with
  | nil => intro b c hc; simp [re_sub_ws_aux] at hc
  | cons a as ih =>
    intro b c hc hsp
    rw [re_sub_ws_aux] at hc
    by_cases ha : pySpace a
    · rw [if_pos ha] at hc
      cases b with
      | true => exact ih true c hc hsp
      | false =>
        rcases List.mem_cons.mp hc with hc | hc
        · exact hc
        · exact ih true c hc hsp
    · rw [if_neg ha] at hc
      rcases List.mem_cons.mp hc with hc | hc
      · subst hc; exact absurd hsp (by simpa using ha)
      · exact ih false c hc hsp

theorem re_sub_ws_aux_head_true :
    ∀ (l : List Char) (c : Char), (re_sub_ws_aux true l).head? = some c →
      pySpace c = false := by
  intro l
  induction l with
  | nil => intro c h; simp [re_sub_ws_aux] at h
  | cons a as ih =>
    intro c h
    rw [re_sub_ws_aux] at h
    by_cases ha : pySpace a
    · rw [if_pos ha, if_pos rfl] at h
      exact ih c h
    · rw [if_neg ha] at h
      simp only [List.head?_cons, Option.some.injEq] at h
      subst h
      simpa using ha

theorem re_sub_ws_aux_chain :
    ∀ (l : List Char) (b : Bool),
      List.Chain' (fun x y => ¬(pySpace x = true ∧ pySpace y = true))
        (re_sub_ws_aux b l) := by
  intro l
  induction l with
  | nil => intro b; simp [re_sub_ws_aux]
  | cons a as ih =>
    intro b
    rw [re_sub_ws_aux]
    by_cases ha : pySpace a
    · rw [if_pos ha]
      cases b with
      | true => exact ih true
      | false =>
        rw [if_neg (by simp)]
        rw [List.chain'_cons']
        refine ⟨fun y hy => ?_, ih true⟩
        have := re_sub_ws_aux_head_true as y hy
        simp [this]
    · rw [if_neg ha]
      rw [List.chain'_cons']
      refine ⟨fun y hy => ?_, ih false⟩
      simp [ha]

theorem re_sub_ws_aux_fixpoint :
    ∀ l : List Char, (∀ c ∈ l, pySpace c = true → c = ' ') →
      List.Chain' (fun x y => ¬(pySpace x = true ∧ pySpace y = true)) l →
      re_sub_ws_aux false l = l := by
  intro l
  induction l with
  | nil => intro _ _; rfl
  | cons a as ih =>
    intro hsp hch
    by_cases ha : pySpace a
    · have ha' : a = ' ' := hsp a (by simp) ha
      subst ha'
      rw [re_sub_ws_aux, if_pos ha, if_neg (by simp)]
      cases as with
      | nil => rfl
      | cons y ys =>
        have hy : pySpace y = false := by
          have := (List.chain'_cons.mp hch).1
          by_contra hyy
          exact this ⟨ha, by simpa using hyy⟩
        rw [re_sub_ws_aux, if_neg (by simp [hy])]
        have htl : re_sub_ws_aux false (y :: ys) = y :: ys := by
          refine ih (fun c hc hc2 => hsp c (by simp [hc]) hc2) (List.chain'_cons.mp hch).2
        rw [re_sub_ws_aux, if_neg (by simp [hy])] at htl
        rw [htl]
    · rw [re_sub_ws_aux, if_neg ha]
      rw [ih (fun c hc hc2 => hsp c (by simp [hc]) hc2) hch.tail]

theorem pyStripL_infix_self (l : List Char) : pyStripL l <:+: l := by
  have hp : List.rdropWhile pySpace (List.dropWhile pySpace l) <+: List.dropWhile pySpace l :=
    List.rdropWhile_prefix pySpace (List.dropWhile pySpace l)
  have hs : List.dropWhile pySpace l <:+ l := List.dropWhile_suffix pySpace
  have hpi : List.rdropWhile pySpace (List.dropWhile pySpace l) <:+: List.dropWhile pySpace l :=
    List.IsPrefix.isInfix hp
  have hsi : List.dropWhile pySpace l <:+: l := List.IsSuffix.isInfix hs
  exact List.IsInfix.trans hpi hsi

theorem pyStripL_head (l : List Char) (c : Char)
    (h : (pyStripL l).head? = some c) : pySpace c = false := by
  have hne : pyStripL l ≠ [] := by
    intro h0; rw [h0] at h; simp at h
  obtain ⟨t, ht⟩ := List.rdropWhile_prefix pySpace (List.dropWhile pySpace l)
  have ht2 : pyStripL l ++ t = List.dropWhile pySpace l := ht
  cases hx : pyStripL l with
  | nil => exact absurd hx hne
  | cons d ds =>
    rw [hx] at h ht2
    simp only [List.head?_cons, Option.some.injEq] at h
    have hwh : (List.dropWhile pySpace l).head? = some d := by
      rw [← ht2]
      rfl
    have hwne : List.dropWhile pySpace l ≠ [] := by
      intro h0; rw [h0] at hwh; simp at hwh
    have hhd := List.head_dropWhile_not pySpace l hwne
    rw [List.head?_eq_head hwne] at hwh
    simp only [Option.some.injEq] at hwh
    rw [← h, ← hwh]
    exact hhd

theorem pyStripL_getLast (l : List Char) (c : Char)
    (h : (pyStripL l).getLast? = some c) : pySpace c = false := by
  have hne : pyStripL l ≠ [] := by
    intro h0; rw [h0] at h; simp at h
  have hlast := List.rdropWhile_last_not pySpace (List.dropWhile pySpace l) hne
  rw [List.getLast?_eq_getLast (pyStripL l) hne] at h
  simp only [Option.some.injEq] at h
  rw [← h]
  simpa using hlast

theorem pyStripL_fixpoint (l : List Char)
    (hh : ∀ c, l.head? = some c → pySpace c = false)
    (hl : ∀ c, l.getLast? = some c → pySpace c = false) : pyStripL l = l := by
  unfold pyStripL
  have h1 : List.dropWhile pySpace l = l := by
    rw [List.dropWhile_eq_self_iff]
    intro hpos
    cases l with
    | nil => simp at hpos
    | cons a as =>
      have := hh a rfl
      simp [this]
  rw [h1, List.rdropWhile_eq_self_iff]
  intro hne
  have := hl (l.getLast hne) (List.getLast?_eq_getLast l hne)
  simp [this]

/-- C4: `clean_text` is idempotent, its output never holds two consecutive
whitespace characters, and its output has no leading or trailing
whitespace. -/
theorem clean_text_spec (s : String) :
    clean_text (clean_text s) = clean_text s ∧
      List.Chain' (fun a b => ¬(pySpace a = true ∧ pySpace b = true))
        (clean_text s).data ∧
      (∀ c, (clean_text s).data.head? = some c → pySpace c = false) ∧
      (∀ c, (clean_text s).data.getLast? = some c → pySpace c = false) := by
  have hxinf : pyStripL (re_sub_ws s.data) <:+: re_sub_ws s.data :=
    pyStripL_infix_self (re_sub_ws s.data)
  have hchain_y : List.Chain' (fun a b => ¬(pySpace a = true ∧ pySpace b = true))
      (re_sub_ws s.data) := re_sub_ws_aux_chain s.data false
  have hchain_x := List.Chain'.infix hchain_y hxinf
  have hhead : ∀ c, (pyStripL (re_sub_ws s.data)).head? = some c → pySpace c = false :=
    fun c hc => pyStripL_head (re_sub_ws s.data) c hc
  have hlast : ∀ c, (pyStripL (re_sub_ws s.data)).getLast? = some c → pySpace c = false :=
    fun c hc => pyStripL_getLast (re_sub_ws s.data) c hc
  refine ⟨?_, hchain_x, hhead, hlast⟩
  have hsub : re_sub_ws (pyStripL (re_sub_ws s.data)) = pyStripL (re_sub_ws s.data) :=
    re_sub_ws_aux_fixpoint (pyStripL (re_sub_ws s.data))
      (fun c hc hsp =>
        re_sub_ws_aux_space_eq s.data false c (List.IsInfix.subset hxinf hc) hsp)
      hchain_x
  have hstrip : pyStripL (pyStripL (re_sub_ws s.data)) = pyStripL (re_sub_ws s.data) :=
    pyStripL_fixpoint (pyStripL (re_sub_ws s.data)) hhead hlast
  show String.mk (pyStripL (re_sub_ws (pyStripL (re_sub_ws s.data)))) =
    String.mk (pyStripL (re_sub_ws s.data))
  rw [hsub, hstrip]

/-- Witness for C4 on a concrete messy input. -/
theorem clean_text_spec_witness :
    clean_text (clean_text " a\t\n b   c  ") = clean_text " a\t\n b   c  " ∧
      clean_text " a\t\n b   c  " = "a b c" ∧
      pySpace 'a' = false :=
  ⟨(clean_text_spec " a\t\n b   c  ").1, by rfl,
   (clean_text_spec " a\t\n b   c  ").2.2.1 'a' (by rfl)⟩
